import Mathlib

/-!
Verification of the Status Poller & View Updater of `static/js/app.js`
(Albion Market Flipper dashboard glue code).

The JavaScript source is shallowly embedded: the DOM regions touched by the
script become explicit record fields, JSON values become an inductive `JsVal`,
a poll outcome becomes `FetchOutcome`, and every handler becomes a pure state
transformer.  A thrown JavaScript exception is modelled as `Except.error`
carrying the state at the moment of the throw (JS mutations are not rolled
back by an exception).  JavaScript numbers are modelled as arbitrary-precision
integers (`Int`) / rationals (`Rat`); `NaN` produced by `parseInt`/`parseFloat`
is modelled as `Option.none`.  Strings use Lean `String`/`List Char`; the
browser builtins used by the code (`parseInt`, `Number.prototype.toLocaleString`
with en-US grouping, `String.prototype.trim/toLowerCase/includes`, regex
replaces of single characters) are re-implemented below on `List Char`.
-/

deriving instance DecidableEq for Except

/-! ## Characters and digit strings -/

/-- The character for a decimal digit `0 ≤ d ≤ 9` (callers only pass `n % 10`). -/
def digitChar (d : Nat) : Char :=
  if d = 0 then '0' else if d = 1 then '1' else if d = 2 then '2'
  else if d = 3 then '3' else if d = 4 then '4' else if d = 5 then '5'
  else if d = 6 then '6' else if d = 7 then '7' else if d = 8 then '8' else '9'

/-- Numeric value of a digit character. -/
def charVal (c : Char) : Nat := c.toNat - 48

/-- Value of a most-significant-first digit string, with accumulator. -/
def digitsVal (acc : Nat) : List Char → Nat
  | [] => acc
  | c :: cs => digitsVal (acc * 10 + charVal c) cs

/-- Little-endian digit characters of `n` (empty for `0`); fuel-structured so
that it reduces in the kernel. -/
def natDigitsCore : Nat → Nat → List Char
  | 0, _ => []
  | fuel + 1, n => if n = 0 then [] else digitChar (n % 10) :: natDigitsCore fuel (n / 10)

/-- Decimal digit characters of `n`, most significant first (`0` gives `"0"`). -/
def natDigits (n : Nat) : List Char :=
  if n = 0 then ['0'] else (natDigitsCore n n).reverse

/-- Plain decimal string of a natural number, as JavaScript `String(n)`. -/
def natToStr (n : Nat) : String := ⟨natDigits n⟩

/-- Plain decimal string of an integer, as JavaScript `String(i)`. -/
def intToStr (i : Int) : String :=
  if i < 0 then ⟨'-' :: natDigits i.natAbs⟩ else ⟨natDigits i.natAbs⟩

/-! ## JavaScript `parseInt` (decimal) -/

/-- Longest digit prefix of a character list. -/
def leadDigits : List Char → List Char
  | [] => []
  | c :: cs => if c.isDigit then c :: leadDigits cs else []

/-- Core of `parseInt` after leading whitespace was dropped: optional sign,
then a maximal digit prefix; `none` models `NaN`. -/
def parseIntCore (cs : List Char) : Option Int :=
  match cs with
  | [] => none
  | c :: rest =>
    if c = '-' then
      if leadDigits rest = [] then none
      else some (-(digitsVal 0 (leadDigits rest) : Int))
    else if c = '+' then
      if leadDigits rest = [] then none
      else some ((digitsVal 0 (leadDigits rest) : Int))
    else
      if leadDigits (c :: rest) = [] then none
      else some ((digitsVal 0 (leadDigits (c :: rest)) : Int))

/-- JavaScript `parseInt(s)` for decimal inputs: `none` models `NaN`. -/
def parseIntJS (s : String) : Option Int :=
  parseIntCore (s.data.dropWhile Char.isWhitespace)

/-- JavaScript `parseInt(s) || 0`: `NaN` collapses to `0` (and `0` stays `0`). -/
def parseIntOr0 (s : String) : Int := (parseIntJS s).getD 0

/-- JavaScript `s.replace(/,/g, '')`. -/
def stripCommas (s : String) : String := ⟨s.data.filter (fun c => decide (c ≠ ','))⟩

/-! ## `Number.prototype.toLocaleString` (en-US digit grouping) -/

/-- Insert a `','` after every three characters of a little-endian digit list;
the counter is the number of characters still allowed before the next comma. -/
def groupRev : Nat → List Char → List Char
  | _, [] => []
  | k, c :: cs => if k = 0 then ',' :: c :: groupRev 2 cs else c :: groupRev (k - 1) cs

/-- `n.toLocaleString()` for a natural number: decimal digits with `,`
separators every three digits. -/
def toLocaleStringNat (n : Nat) : String :=
  ⟨(groupRev 3 (natDigits n).reverse).reverse⟩

/-- `i.toLocaleString()` for an integer. -/
def toLocaleStringInt (i : Int) : String :=
  if i < 0 then ⟨'-' :: (groupRev 3 (natDigits i.natAbs).reverse).reverse⟩
  else ⟨(groupRev 3 (natDigits i.natAbs).reverse).reverse⟩

/-! ## `trim`, `toLowerCase`, `includes` -/

/-- JavaScript `s.trim()`. -/
def trimStr (s : String) : String :=
  ⟨((s.data.dropWhile Char.isWhitespace).reverse.dropWhile Char.isWhitespace).reverse⟩

/-- JavaScript `s.toLowerCase()` (ASCII case folding). -/
def toLowerStr (s : String) : String := ⟨s.data.map Char.toLower⟩

/-- Whether `pat` is a prefix of `hay` (Boolean). -/
def startsWithL : List Char → List Char → Bool
  | _, [] => true
  | [], _ :: _ => false
  | c :: cs, d :: ds => c == d && startsWithL cs ds

/-- JavaScript `hay.includes(pat)`: substring occurrence test. -/
def listHasSub : List Char → List Char → Bool
  | [], pat => pat.isEmpty
  | c :: t, pat => startsWithL (c :: t) pat || listHasSub t pat

/-- Substring occurrence as a proposition: `pat` occurs contiguously in `hay`. -/
def SubOccurs (pat hay : List Char) : Prop := ∃ p q, hay = p ++ pat ++ q

/-- JavaScript `Array.prototype.join(sep)`. -/
def joinSep (sep : String) : List String → String
  | [] => ""
  | [x] => x
  | x :: xs => x ++ sep ++ joinSep sep xs

/-! ## Basic lemmas about the digit machinery -/

theorem charVal_digitChar (d : Nat) (h : d < 10) : charVal (digitChar d) = d := by
  interval_cases d <;> decide

theorem digitChar_isDigit (d : Nat) (h : d < 10) : (digitChar d).isDigit = true := by
  interval_cases d <;> decide

theorem digitChar_ne (d : Nat) (h : d < 10) :
    digitChar d ≠ ',' ∧ digitChar d ≠ '-' ∧ digitChar d ≠ '+' := by
  interval_cases d <;> exact ⟨by decide, by decide, by decide⟩

theorem digit_not_ws (c : Char) (h : c.isDigit = true) : c.isWhitespace = false := by
  cases hw : c.isWhitespace
  · rfl
  · exfalso
    simp only [Char.isWhitespace, Bool.or_eq_true, decide_eq_true_eq] at hw
    rcases hw with ((h1 | h1) | h1) | h1 <;> subst h1 <;> exact absurd h (by decide)

theorem digit_ne_signs (c : Char) (h : c.isDigit = true) :
    c ≠ '-' ∧ c ≠ '+' := by
  constructor <;> intro h1 <;> subst h1 <;> exact absurd h (by decide)

theorem digitsVal_nil (acc : Nat) : digitsVal acc [] = acc := rfl

theorem digitsVal_cons (acc : Nat) (c : Char) (cs : List Char) :
    digitsVal acc (c :: cs) = digitsVal (acc * 10 + charVal c) cs := rfl

theorem digitsVal_append (acc : Nat) (xs ys : List Char) :
    digitsVal acc (xs ++ ys) = digitsVal (digitsVal acc xs) ys := by
  induction xs generalizing acc with
  | nil => rfl
  | cons c cs ih => exact ih (acc * 10 + charVal c)

theorem natDigitsCore_val (fuel : Nat) :
    ∀ n, n ≤ fuel → digitsVal 0 (natDigitsCore fuel n).reverse = n := by
  induction fuel with
  | zero => intro n h; interval_cases n; rfl
  | succ f ih =>
    intro n h
    by_cases h0 : n = 0
    · subst h0; rfl
    · have hlt : n / 10 < n := Nat.div_lt_self (Nat.pos_of_ne_zero h0) (by omega)
      have h10 : n % 10 < 10 := Nat.mod_lt n (by omega)
      simp only [natDigitsCore, h0, if_false, List.reverse_cons]
      rw [digitsVal_append, ih (n / 10) (by omega), digitsVal_cons,
        charVal_digitChar (n % 10) h10, digitsVal_nil]
      omega

theorem digitsVal_natDigits (n : Nat) : digitsVal 0 (natDigits n) = n := by
  by_cases h0 : n = 0
  · subst h0; rfl
  · simp only [natDigits, h0, if_false]
    exact natDigitsCore_val n n le_rfl

theorem natDigitsCore_digits (fuel : Nat) :
    ∀ n, ∀ c ∈ natDigitsCore fuel n, c.isDigit = true := by
  induction fuel with
  | zero => intro n c hc; simp [natDigitsCore] at hc
  | succ f ih =>
    intro n c hc
    by_cases h0 : n = 0
    · subst h0; simp [natDigitsCore] at hc
    · simp only [natDigitsCore, h0, if_false, List.mem_cons] at hc
      have h10 : n % 10 < 10 := Nat.mod_lt n (by omega)
      rcases hc with h1 | h1
      · subst h1; exact digitChar_isDigit (n % 10) h10
      · exact ih (n / 10) c h1

theorem natDigits_digits (n : Nat) : ∀ c ∈ natDigits n, c.isDigit = true := by
  intro c hc
  by_cases h0 : n = 0
  · subst h0; simp only [natDigits, if_true, List.mem_singleton, reduceIte] at hc
    subst hc; decide
  · simp only [natDigits, h0, if_false, List.mem_reverse] at hc
    exact natDigitsCore_digits n n c hc

theorem natDigits_ne_nil (n : Nat) : natDigits n ≠ [] := by
  by_cases h0 : n = 0
  · subst h0; decide
  · simp only [natDigits, h0, if_false]
    intro hcon
    have hval := natDigitsCore_val n n le_rfl
    rw [hcon, digitsVal_nil] at hval
    exact h0 hval.symm

theorem leadDigits_all (l : List Char) (h : ∀ c ∈ l, c.isDigit = true) :
    leadDigits l = l := by
  induction l with
  | nil => rfl
  | cons c cs ih =>
    simp only [leadDigits, h c (List.mem_cons_self c cs), if_true]
    rw [ih (fun d hd => h d (List.mem_cons_of_mem c hd))]

theorem digit_ne_comma (c : Char) (h : c.isDigit = true) : c ≠ ',' := by
  intro h1; subst h1; exact absurd h (by decide)

theorem parseIntCore_cons (c : Char) (rest : List Char) :
    parseIntCore (c :: rest) =
      if c = '-' then
        if leadDigits rest = [] then none
        else some (-(digitsVal 0 (leadDigits rest) : Int))
      else if c = '+' then
        if leadDigits rest = [] then none
        else some ((digitsVal 0 (leadDigits rest) : Int))
      else
        if leadDigits (c :: rest) = [] then none
        else some ((digitsVal 0 (leadDigits (c :: rest)) : Int)) := rfl

theorem parseIntCore_digits (c : Char) (cs : List Char)
    (h : ∀ d ∈ c :: cs, d.isDigit = true) :
    parseIntCore (c :: cs) = some ((digitsVal 0 (c :: cs) : Nat) : Int) := by
  have hc := h c (List.mem_cons_self c cs)
  have hsigns := digit_ne_signs c hc
  have hall : leadDigits (c :: cs) = c :: cs := leadDigits_all _ h
  rw [parseIntCore_cons, if_neg hsigns.1, if_neg hsigns.2, hall,
    if_neg (List.cons_ne_nil c cs)]

theorem dropWhile_digits (c : Char) (cs : List Char)
    (h : ∀ d ∈ c :: cs, d.isDigit = true) :
    (c :: cs).dropWhile Char.isWhitespace = c :: cs := by
  rw [List.dropWhile_cons, digit_not_ws c (h c (List.mem_cons_self c cs))]
  simp only [Bool.false_eq_true, if_false]

theorem parseIntJS_natToStr (n : Nat) : parseIntJS (natToStr n) = some (n : Int) := by
  obtain ⟨c, cs, hcc⟩ : ∃ c cs, natDigits n = c :: cs := by
    cases hd : natDigits n with
    | nil => exact absurd hd (natDigits_ne_nil n)
    | cons c cs => exact ⟨c, cs, rfl⟩
  have hdig : ∀ d ∈ c :: cs, d.isDigit = true := by
    rw [← hcc]; exact natDigits_digits n
  have h1 : parseIntJS (natToStr n) =
      parseIntCore ((natDigits n).dropWhile Char.isWhitespace) := rfl
  rw [h1, hcc, dropWhile_digits c cs hdig, parseIntCore_digits c cs hdig, ← hcc,
    digitsVal_natDigits]

theorem parseIntJS_intToStr (i : Int) : parseIntJS (intToStr i) = some i := by
  by_cases hneg : i < 0
  · obtain ⟨c, cs, hcc⟩ : ∃ c cs, natDigits i.natAbs = c :: cs := by
      cases hd : natDigits i.natAbs with
      | nil => exact absurd hd (natDigits_ne_nil _)
      | cons c cs => exact ⟨c, cs, rfl⟩
    have hdig : ∀ d ∈ c :: cs, d.isDigit = true := by
      rw [← hcc]; exact natDigits_digits _
    have h1 : parseIntJS (intToStr i) =
        parseIntCore (('-' :: natDigits i.natAbs).dropWhile Char.isWhitespace) := by
      simp only [parseIntJS, intToStr, if_pos hneg]
    have h2 : ('-' :: natDigits i.natAbs).dropWhile Char.isWhitespace
        = '-' :: natDigits i.natAbs := by
      rw [List.dropWhile_cons]
      simp only [show ('-').isWhitespace = false from rfl, Bool.false_eq_true, if_false]
    rw [h1, h2, parseIntCore_cons, if_pos rfl, hcc, leadDigits_all _ hdig,
      if_neg (List.cons_ne_nil c cs), ← hcc, digitsVal_natDigits]
    congr 1
    omega
  · have h1 : intToStr i = natToStr i.natAbs := by
      simp only [intToStr, natToStr, if_neg hneg]
    rw [h1, parseIntJS_natToStr]
    congr 1
    omega

theorem groupRev_nil (k : Nat) : groupRev k [] = [] := rfl

theorem groupRev_cons (k : Nat) (c : Char) (cs : List Char) :
    groupRev k (c :: cs) =
      if k = 0 then ',' :: c :: groupRev 2 cs else c :: groupRev (k - 1) cs := rfl

theorem filter_comma_cons (c : Char) (cs : List Char) (hc : c ≠ ',') :
    List.filter (fun d => decide (d ≠ ',')) (c :: cs)
      = c :: List.filter (fun d => decide (d ≠ ',')) cs := by
  simp [List.filter_cons, hc]

theorem filter_comma_head (cs : List Char) :
    List.filter (fun d => decide (d ≠ ',')) (',' :: cs)
      = List.filter (fun d => decide (d ≠ ',')) cs := by
  simp [List.filter_cons]

theorem groupRev_filter (l : List Char) (h : ',' ∉ l) (k : Nat) :
    (groupRev k l).filter (fun c => decide (c ≠ ',')) = l := by
  induction l generalizing k with
  | nil => rfl
  | cons c cs ih =>
    have hc : c ≠ ',' := fun e => h (e ▸ List.mem_cons_self c cs)
    have hcs : ',' ∉ cs := fun hm => h (List.mem_cons_of_mem c hm)
    by_cases hk : k = 0
    · subst hk
      rw [groupRev_cons, if_pos rfl, filter_comma_head, filter_comma_cons c _ hc,
        ih hcs 2]
    · rw [groupRev_cons, if_neg hk, filter_comma_cons c _ hc, ih hcs (k - 1)]

theorem natDigits_no_comma (n : Nat) : ',' ∉ natDigits n := by
  intro hm
  exact digit_ne_comma ',' (natDigits_digits n ',' hm) rfl

theorem stripCommas_toLocaleInt (i : Int) :
    stripCommas (toLocaleStringInt i) = intToStr i := by
  have hrev : ',' ∉ (natDigits i.natAbs).reverse := by
    rw [List.mem_reverse]; exact natDigits_no_comma _
  by_cases hneg : i < 0
  · have h1 : stripCommas (toLocaleStringInt i) =
        ⟨('-' :: (groupRev 3 (natDigits i.natAbs).reverse).reverse).filter
          (fun c => decide (c ≠ ','))⟩ := by
      simp only [stripCommas, toLocaleStringInt, if_pos hneg]
    rw [h1]
    have h2 := filter_comma_cons '-'
      ((groupRev 3 (natDigits i.natAbs).reverse).reverse) (by decide)
    rw [show (⟨('-' :: (groupRev 3 (natDigits i.natAbs).reverse).reverse).filter
        (fun c => decide (c ≠ ','))⟩ : String)
      = ⟨'-' :: ((groupRev 3 (natDigits i.natAbs).reverse).reverse).filter
        (fun c => decide (c ≠ ','))⟩ from by rw [h2]]
    rw [List.filter_reverse, groupRev_filter _ hrev 3, List.reverse_reverse]
    simp only [intToStr, if_pos hneg]
  · have h1 : stripCommas (toLocaleStringInt i) =
        ⟨((groupRev 3 (natDigits i.natAbs).reverse).reverse).filter
          (fun c => decide (c ≠ ','))⟩ := by
      simp only [stripCommas, toLocaleStringInt, if_neg hneg]
    rw [h1, List.filter_reverse, groupRev_filter _ hrev 3, List.reverse_reverse]
    simp only [intToStr, if_neg hneg]

theorem locale_roundtrip (i : Int) :
    parseIntOr0 (stripCommas (toLocaleStringInt i)) = i := by
  rw [stripCommas_toLocaleInt]
  simp only [parseIntOr0, parseIntJS_intToStr, Option.getD_some]

/-! ## JavaScript values and the JSON status payload -/

/-- A JavaScript value as it can appear in a parsed JSON field access
(`undef` models a missing field). Numbers are modelled as integers. -/
inductive JsVal where
  | undef
  | null
  | bool (b : Bool)
  | num (n : Int)
  | str (s : String)
deriving DecidableEq

/-- JavaScript truthiness. -/
def JsVal.truthy : JsVal → Bool
  | .undef => false
  | .null => false
  | .bool b => b
  | .num n => decide (n ≠ 0)
  | .str s => decide (s ≠ "")

/-- JavaScript string conversion, as applied when a value is assigned to
`textContent` or to an input's `value`. -/
def JsVal.toStr : JsVal → String
  | .undef => "undefined"
  | .null => "null"
  | .bool b => if b then "true" else "false"
  | .num n => intToStr n
  | .str s => s

/-- `v.toLocaleString()`: throws a `TypeError` (`none`) on `undefined`/`null`,
formats numbers with digit grouping, and is the identity on strings. -/
def JsVal.toLocaleStr : JsVal → Option String
  | .undef => none
  | .null => none
  | .bool b => some (if b then "true" else "false")
  | .num n => some (toLocaleStringInt n)
  | .str s => some s

/-- The parsed `/api/status` JSON body; each documented field is an arbitrary
`JsVal` so that payloads of the wrong shape are representable. -/
structure JsonData where
  connection_established : JsVal
  current_player : JsVal
  current_location : JsVal
  offers_count : JsVal
  requests_count : JsVal
deriving DecidableEq

/-! ## The DOM regions touched by the poller -/

/-- A DOM element as the script uses it: its text, its class list and its
`title` attribute. -/
structure Element where
  textContent : String
  classes : List String
  title : String
deriving DecidableEq

/-- `classList.add`: appends the class if it is not already present. -/
def classAdd (c : String) (l : List String) : List String :=
  if l.contains c then l else l ++ [c]

/-- The mutable state of `app.js`: the module-level `connectionStatus` flag
plus the DOM regions the poller writes (`querySelector` misses are `none`,
`querySelectorAll` results are lists).  The `lastUpdateTime` global and the
`.last-update-time` elements are collapsed into the list of their texts. -/
structure AppState where
  connectionStatus : JsVal
  indicators : List Element
  playerInfo : Option Element
  locationInfo : Option Element
  offersCount : Option Element
  requestsCount : Option Element
  lastUpdateTexts : List String
deriving DecidableEq

/-! ## The poller (`refreshData`, `updateStatus` and helpers) -/

/-- Body of the `indicators.forEach` loop of `updateConnectionIndicator`:
sets `className` and `title` from the connection flag. -/
def connIndicatorUpd (connected : Bool) (e : Element) : Element :=
  if connected then
    { e with classes := ["connection-indicator", "fas", "fa-circle", "text-success"],
             title := "Connected" }
  else
    { e with classes := ["connection-indicator", "fas", "fa-circle", "text-danger"],
             title := "Disconnected" }

/-- `updateConnectionIndicator()`: restyles every `.connection-indicator`
element from the module-level `connectionStatus`. -/
def updateConnectionIndicator (st : AppState) : AppState :=
  { st with indicators := st.indicators.map (connIndicatorUpd st.connectionStatus.truthy) }

/-- `updateCountWithAnimation(selector, newValue)` on the selected element:
re-parses the displayed text (`parseInt(text.replace(/,/g, '')) || 0`),
and only when it differs from `newValue` adds the `fade-in` class and writes
`newValue.toLocaleString()`.  A `TypeError` from `toLocaleString` (when the
payload field is `undefined`/`null`) is `Except.error`, carrying the element
as already mutated by the preceding `classList.add` (the pending 300 ms
timeout that removes the class again is outside the synchronous step). -/
def updateCountWithAnimation (newValue : JsVal) (el : Option Element) :
    Except (Option Element) (Option Element) :=
  match el with
  | none => .ok none
  | some e =>
    let currentValue : Int := parseIntOr0 (stripCommas e.textContent)
    if newValue = .num currentValue then .ok (some e)
    else
      match newValue.toLocaleStr with
      | none => .error (some { e with classes := classAdd "fade-in" e.classes })
      | some s => .ok (some { e with classes := classAdd "fade-in" e.classes,
                                     textContent := s })

/-- The `.player-info` update of `updateStatus`: overwrite the text only when
the element exists and `data.current_player` is truthy. -/
def setPlayer (v : JsVal) (st : AppState) : AppState :=
  match st.playerInfo with
  | some e => if v.truthy then { st with playerInfo := some { e with textContent := v.toStr } }
              else st
  | none => st

/-- The `.location-info` update of `updateStatus`. -/
def setLocation (v : JsVal) (st : AppState) : AppState :=
  match st.locationInfo with
  | some e => if v.truthy then { st with locationInfo := some { e with textContent := v.toStr } }
              else st
  | none => st

/-- The two `updateCountWithAnimation` calls at the end of `updateStatus`,
first `.offers-count` then `.requests-count`; an exception from the first
aborts the second. -/
def applyCounters (doff dreq : JsVal) (s : AppState) : Except AppState AppState :=
  match updateCountWithAnimation doff s.offersCount with
  | .error pe => .error { s with offersCount := pe }
  | .ok oe =>
    match updateCountWithAnimation dreq s.requestsCount with
    | .error pe => .error { s with offersCount := oe, requestsCount := pe }
    | .ok re => .ok { s with offersCount := oe, requestsCount := re }

/-- `updateStatus(data)`: assigns `connectionStatus`, restyles the indicator,
conditionally overwrites player and location, then updates the two counters.
An exception thrown by a counter update aborts the remaining statements;
the `Except.error` payload is the state at the moment of the throw. -/
def updateStatus (data : JsonData) (st : AppState) : Except AppState AppState :=
  applyCounters data.offers_count data.requests_count
    (setLocation data.current_location (setPlayer data.current_player
      (updateConnectionIndicator { st with connectionStatus := data.connection_established })))

/-- `updateLastUpdateTime()` at wall-clock text `now`. -/
def updateLastUpdateTime (now : String) (st : AppState) : AppState :=
  { st with lastUpdateTexts := st.lastUpdateTexts.map (fun _ => now) }

/-- The outcome of one `fetch('/api/status')`: a network error (the fetch
promise rejects), or a received HTTP response with its status code and the
result of `response.json()` (`none` when the body is not valid JSON, in which
case `response.json()` rejects). `fetch` itself never rejects on a non-2xx
status. -/
inductive FetchOutcome where
  | networkError
  | response (status : Nat) (body : Option JsonData)
deriving DecidableEq

/-- The `.catch` handler of `refreshData`: log, set `connectionStatus = false`,
restyle the indicator. -/
def catchHandler (st : AppState) : AppState :=
  updateConnectionIndicator { st with connectionStatus := .bool false }

/-- `refreshData()` for one poll with outcome `o`, at wall-clock text `now`:
the promise chain `fetch → response.json() → updateStatus; updateLastUpdateTime`
with the `.catch` handler applied to whatever state the rejection left behind. -/
def refreshData (now : String) (o : FetchOutcome) (st : AppState) : AppState :=
  match o with
  | .networkError => catchHandler st
  | .response _ none => catchHandler st
  | .response _ (some data) =>
    match updateStatus data st with
    | .ok st2 => updateLastUpdateTime now st2
    | .error stp => catchHandler stp

/-- Whether the promise chain of the poll rejects (network error, JSON parse
failure, or an exception thrown inside `updateStatus`). -/
def pollRejects (o : FetchOutcome) (st : AppState) : Bool :=
  match o with
  | .networkError => true
  | .response _ none => true
  | .response _ (some data) =>
    match updateStatus data st with
    | .error _ => true
    | .ok _ => false

/-- Whether the poll fails before the render step is reached (network error or
JSON parse failure). -/
def failsBeforeRender : FetchOutcome → Bool
  | .networkError => true
  | .response _ none => true
  | .response _ (some _) => false

/-! ## Lemmas about the poller -/

/-- The state a poll's promise chain ends in, whether it resolved or rejected. -/
def exceptState : Except AppState AppState → AppState
  | .ok s => s
  | .error s => s

theorem setPlayer_indicators (v : JsVal) (st : AppState) :
    (setPlayer v st).indicators = st.indicators := by
  unfold setPlayer
  cases hp : st.playerInfo with
  | none => rfl
  | some e => cases hv : v.truthy <;> rfl

theorem setLocation_indicators (v : JsVal) (st : AppState) :
    (setLocation v st).indicators = st.indicators := by
  unfold setLocation
  cases hp : st.locationInfo with
  | none => rfl
  | some e => cases hv : v.truthy <;> rfl

theorem applyCounters_indicators (v w : JsVal) (s : AppState) :
    (exceptState (applyCounters v w s)).indicators = s.indicators := by
  unfold applyCounters
  cases hoff : updateCountWithAnimation v s.offersCount with
  | error pe => rfl
  | ok oe =>
    cases hreq : updateCountWithAnimation w s.requestsCount with
    | error pe => rfl
    | ok re => rfl

theorem updateStatus_indicators (d : JsonData) (st : AppState) :
    (exceptState (updateStatus d st)).indicators
      = st.indicators.map (connIndicatorUpd d.connection_established.truthy) := by
  unfold updateStatus
  rw [applyCounters_indicators, setLocation_indicators, setPlayer_indicators]
  rfl

theorem connIndicatorUpd_comp (c : Bool) (e : Element) :
    connIndicatorUpd false (connIndicatorUpd c e) = connIndicatorUpd false e := by
  cases c <;> rfl

theorem catchHandler_indicators (st : AppState) :
    (catchHandler st).indicators = st.indicators.map (connIndicatorUpd false) := rfl

/-- Equation lemma for `updateCountWithAnimation` on a present element. -/
theorem updateCountWithAnimation_some (newValue : JsVal) (e : Element) :
    updateCountWithAnimation newValue (some e) =
      (if newValue = .num (parseIntOr0 (stripCommas e.textContent)) then .ok (some e)
      else match newValue.toLocaleStr with
        | none => .error (some { e with classes := classAdd "fade-in" e.classes })
        | some s => .ok (some { e with classes := classAdd "fade-in" e.classes,
                                       textContent := s })) := rfl

/-! ## Claims about the poller (C1 - C4) -/

/-- A concrete state for exercising the failure path: one indicator, a player
display showing "Old", an offers counter showing "3". -/
def c1State : AppState :=
  { connectionStatus := .bool false, indicators := [],
    playerInfo := some ⟨"Old", [], ""⟩, locationInfo := none,
    offersCount := some ⟨"3", [], ""⟩, requestsCount := some ⟨"0", [], ""⟩,
    lastUpdateTexts := [] }

/-- A payload whose `offers_count` field is missing: rendering it reaches
`undefined.toLocaleString()` and throws, but only after the player display was
overwritten. -/
def c1Data : JsonData :=
  ⟨.bool true, .str "Alice", .undef, .undef, .num 0⟩

/-- C1 counterexample: a poll whose promise chain rejects (the render step
throws on the missing `offers_count`) does end with the connection flag false,
but the displayed player field was altered by the partial render — so the
claimed atomicity on error (only connection state and indicator touched) fails
at this input. -/
theorem c1_reject_midrender_alters_player :
    pollRejects (.response 200 (some c1Data)) c1State = true ∧
    (refreshData "t" (.response 200 (some c1Data)) c1State).connectionStatus = .bool false ∧
    Option.map Element.textContent
      (refreshData "t" (.response 200 (some c1Data)) c1State).playerInfo = some "Alice" ∧
    Option.map Element.textContent c1State.playerInfo = some "Old" := by
  decide

/-- C1 (amended): whenever the poll's promise chain rejects, the handler ends
with the connection flag `false` and every indicator restyled to the
disconnected state; and when the failure happens before the render step
(network error or JSON parse failure) the player, location, counter and
timestamp displays are left unchanged.  (A rejection thrown inside the render
step still ends with the flag false and the indicator updated, but fields
written before the throw keep their new values.) -/
theorem c1_failure_touches_only_connection (now : String) (o : FetchOutcome)
    (st : AppState) (h : pollRejects o st = true) :
    (refreshData now o st).connectionStatus = .bool false ∧
    (refreshData now o st).indicators = st.indicators.map (connIndicatorUpd false) ∧
    (failsBeforeRender o = true →
      (refreshData now o st).playerInfo = st.playerInfo ∧
      (refreshData now o st).locationInfo = st.locationInfo ∧
      (refreshData now o st).offersCount = st.offersCount ∧
      (refreshData now o st).requestsCount = st.requestsCount ∧
      (refreshData now o st).lastUpdateTexts = st.lastUpdateTexts) := by
  cases o with
  | networkError => exact ⟨rfl, rfl, fun _ => ⟨rfl, rfl, rfl, rfl, rfl⟩⟩
  | response status body =>
    cases body with
    | none => exact ⟨rfl, rfl, fun _ => ⟨rfl, rfl, rfl, rfl, rfl⟩⟩
    | some d =>
      cases hup : updateStatus d st with
      | ok st2 => simp [pollRejects, hup] at h
      | error stp =>
        have hr : refreshData now (.response status (some d)) st = catchHandler stp := by
          simp only [refreshData, hup]
        have hind : stp.indicators
            = st.indicators.map (connIndicatorUpd d.connection_established.truthy) := by
          have hi := updateStatus_indicators d st
          rw [hup] at hi
          exact hi
        refine ⟨?_, ?_, ?_⟩
        · rw [hr]; rfl
        · rw [hr, catchHandler_indicators, hind, List.map_map]
          have hcomp : (connIndicatorUpd false ∘
              connIndicatorUpd d.connection_established.truthy) = connIndicatorUpd false :=
            funext (fun e => connIndicatorUpd_comp _ e)
          rw [hcomp]
        · intro hb; simp [failsBeforeRender] at hb

/-- C1 witness: the amended statement instantiated at a network error on a
concrete state. -/
theorem c1_failure_touches_only_connection_witness :
    (refreshData "t" .networkError c1State).connectionStatus = .bool false ∧
    (refreshData "t" .networkError c1State).indicators
      = c1State.indicators.map (connIndicatorUpd false) ∧
    (failsBeforeRender .networkError = true →
      (refreshData "t" .networkError c1State).playerInfo = c1State.playerInfo ∧
      (refreshData "t" .networkError c1State).locationInfo = c1State.locationInfo ∧
      (refreshData "t" .networkError c1State).offersCount = c1State.offersCount ∧
      (refreshData "t" .networkError c1State).requestsCount = c1State.requestsCount ∧
      (refreshData "t" .networkError c1State).lastUpdateTexts = c1State.lastUpdateTexts) :=
  c1_failure_touches_only_connection "t" .networkError c1State rfl

/-- A state whose offers counter shows "3" and requests counter shows "7". -/
def c2State : AppState :=
  { connectionStatus := .bool false, indicators := [],
    playerInfo := none, locationInfo := none,
    offersCount := some ⟨"3", [], ""⟩, requestsCount := some ⟨"7", [], ""⟩,
    lastUpdateTexts := [] }

/-- A well-formed status payload. -/
def c2Data : JsonData :=
  ⟨.bool true, .undef, .undef, .num 5, .num 7⟩

/-- C2 counterexample: an HTTP 500 response whose body parses as a well-formed
status payload is rendered as a success — the connection flag ends `true` and
the offers counter is overwritten — contradicting the claim that every non-2xx
poll sets the connection state to false and alters no other displayed field. -/
theorem c2_non2xx_rendered :
    (refreshData "t" (.response 500 (some c2Data)) c2State).connectionStatus = .bool true ∧
    Option.map Element.textContent
      (refreshData "t" (.response 500 (some c2Data)) c2State).offersCount = some "5" ∧
    Option.map Element.textContent c2State.offersCount = some "3" := by
  decide

/-- C2 (amended): the handler never inspects the HTTP status code — a response
is processed identically under any status once its body is fixed — and the
failure path (connection flag set false, indicator restyled, nothing else in
the handler) is taken exactly on a network error or a JSON body parse
failure. -/
theorem c2_status_ignored (now : String) (s1 s2 : Nat) (body : Option JsonData)
    (st : AppState) :
    refreshData now (.response s1 body) st = refreshData now (.response s2 body) st ∧
    refreshData now (.response s1 none) st = catchHandler st ∧
    refreshData now .networkError st = catchHandler st ∧
    (catchHandler st).connectionStatus = .bool false := by
  refine ⟨?_, rfl, rfl, rfl⟩
  cases body <;> rfl

/-- C3: for every integer counter value delivered in a snapshot and every
present counter element, the render step succeeds and the element's text
afterwards parses back — by the renderer's own rule, comma-stripping then
`parseInt` with `|| 0` — to exactly that value. -/
theorem c3_counter_roundtrip (v : Int) (e : Element) :
    ∃ e2, updateCountWithAnimation (.num v) (some e) = .ok (some e2) ∧
      parseIntOr0 (stripCommas e2.textContent) = v := by
  by_cases h : (JsVal.num v) = .num (parseIntOr0 (stripCommas e.textContent))
  · refine ⟨e, ?_, ?_⟩
    · rw [updateCountWithAnimation_some, if_pos h]
    · have h2 : v = parseIntOr0 (stripCommas e.textContent) := by injection h
      exact h2.symm
  · exact ⟨{ e with classes := classAdd "fade-in" e.classes, textContent := toLocaleStringInt v }, by rw [updateCountWithAnimation_some, if_neg h]; rfl, locale_roundtrip v⟩

/-- C4: a snapshot counter value equal to the value parsed back from the
element's current text is a no-op — the element (text and class list) is
returned unchanged, with no `fade-in` class added. -/
theorem c4_unchanged_counter_untouched (v : Int) (e : Element)
    (h : parseIntOr0 (stripCommas e.textContent) = v) :
    updateCountWithAnimation (.num v) (some e) = .ok (some e) := by
  rw [updateCountWithAnimation_some, if_pos (by rw [h])]

/-- C4 witness: a counter showing "1,234" receiving the value 1234. -/
theorem c4_unchanged_counter_untouched_witness :
    parseIntOr0 (stripCommas "1,234") = 1234 ∧
    updateCountWithAnimation (.num 1234) (some ⟨"1,234", ["badge"], ""⟩)
      = .ok (some ⟨"1,234", ["badge"], ""⟩) :=
  ⟨by decide, c4_unchanged_counter_untouched 1234 ⟨"1,234", ["badge"], ""⟩ (by decide)⟩

/-! ## JavaScript `parseFloat` (for the numeric sort comparator) -/

/-- `s.replace(/[^0-9.-]/g, '')`: keep only digits, dots and minus signs. -/
def stripNonNumeric (s : String) : String :=
  ⟨s.data.filter (fun c => c.isDigit || c = '.' || c = '-')⟩

/-- JavaScript `parseFloat(s)` restricted to plain decimal notation: optional
sign, integer digits, optional fractional digits; `none` models `NaN`. -/
def parseFloatJS (s : String) : Option Rat :=
  let cs0 := s.data.dropWhile Char.isWhitespace
  let neg : Bool := match cs0 with
    | '-' :: _ => true
    | _ => false
  let cs1 := match cs0 with
    | '-' :: rest => rest
    | '+' :: rest => rest
    | other => other
  let intPart := leadDigits cs1
  let rest := cs1.drop intPart.length
  let fracPart := match rest with
    | '.' :: r => leadDigits r
    | _ => []
  if intPart = [] && fracPart = [] then none
  else
    let v : Rat := (digitsVal 0 intPart : Rat) + (digitsVal 0 fracPart : Rat) / ((10 : Rat) ^ fracPart.length)
    some (if neg then -v else v)

/-- `a.localeCompare(b)`, modelled as lexicographic comparison returning the
sign. -/
def strCompare (a b : String) : Int :=
  match compare a b with
  | .lt => -1
  | .eq => 0
  | .gt => 1

/-! ## The table model (`sortTable`, `filterTable`, `exportTableToCSV`) -/

/-- A `<tr>` of a table body: the text of its cells and its
`style.display`. -/
structure TableRow where
  cells : List String
  display : String
deriving DecidableEq

/-- A `<th>` header cell: its text and class list. -/
structure HeaderCell where
  text : String
  classes : List String
deriving DecidableEq

/-- A `<table>` as the utilities see it: an optional header row, an optional
`<tbody>` (its `<tr>`s), and the `data-sort-column` / `data-sort-direction`
dataset entries (`none` when the attribute is absent). -/
structure Table where
  headerRow : Option (List HeaderCell)
  tbody : Option (List TableRow)
  sortColumn : Option String
  sortDirection : Option String
deriving DecidableEq

/-- `table.dataset.sortDirection || 'asc'`. -/
def currentDirOf (t : Table) : String :=
  match t.sortDirection with
  | none => "asc"
  | some s => if s = "" then "asc" else s

/-- The comparator of `sortTable` on two rows: reads `cells[columnIndex]`
(`.error` models the `TypeError` when the cell is absent), trims, compares
numerically (`parseFloat` of the stripped text, `NaN` comparing equal, as
`Array.prototype.sort` treats a `NaN` comparator result as `0`) or by
`localeCompare`, and negates for descending order. -/
def compRows (isNumeric ascQ : Bool) (columnIndex : Nat) (a b : TableRow) :
    Except Unit Int :=
  match a.cells.get? columnIndex, b.cells.get? columnIndex with
  | some av, some bv =>
    let aVal := trimStr av
    let bVal := trimStr bv
    let comparison : Int :=
      if isNumeric then
        match parseFloatJS (stripNonNumeric aVal), parseFloatJS (stripNonNumeric bVal) with
        | some x, some y => if x < y then -1 else if y < x then 1 else 0
        | _, _ => 0
      else strCompare aVal bVal
    .ok (if ascQ then comparison else -comparison)
  | _, _ => .error ()

/-- Whether the comparator orders `a` at or before `b` (result `≤ 0`). -/
def rowLe (isNumeric ascQ : Bool) (columnIndex : Nat) (a b : TableRow) :
    Except Unit Bool :=
  match compRows isNumeric ascQ columnIndex a b with
  | .error e => .error e
  | .ok z => .ok (decide (z ≤ 0))

/-- Stable insertion into a sorted list, threading comparator exceptions. -/
def insertRowE (le : TableRow → TableRow → Except Unit Bool) (x : TableRow) :
    List TableRow → Except Unit (List TableRow)
  | [] => .ok [x]
  | y :: ys =>
    match le x y with
    | .error e => .error e
    | .ok true => .ok (x :: y :: ys)
    | .ok false =>
      match insertRowE le x ys with
      | .error e => .error e
      | .ok rest => .ok (y :: rest)

/-- Stable sort of the row list (insertion sort; `Array.prototype.sort` is
stable), threading comparator exceptions. -/
def sortRowsE (le : TableRow → TableRow → Except Unit Bool) :
    List TableRow → Except Unit (List TableRow)
  | [] => .ok []
  | x :: xs =>
    match sortRowsE le xs with
    | .error e => .error e
    | .ok s => insertRowE le x s

/-- The `headers.forEach` loop at the end of `sortTable`: strip
`sort-asc`/`sort-desc` everywhere and add `sort-<newDir>` on the sorted
column's header. -/
def updateHeaderCells (columnIndex : Nat) (newDir : String) :
    Option (List HeaderCell) → Option (List HeaderCell)
  | none => none
  | some hs => some (hs.enum.map fun p =>
      let cleaned := p.2.classes.filter (fun c => !(c == "sort-asc" || c == "sort-desc"))
      let h2 : HeaderCell := { p.2 with classes := cleaned }
      if p.1 = columnIndex then
        { h2 with classes := classAdd ("sort-" ++ newDir) h2.classes }
      else h2)

/-- The direction the next `sortTable` call will use: toggle to descending
only when the table is already recorded as sorted ascending on this column. -/
def newDirOf (table : Table) (columnIndex : Nat) : String :=
  if table.sortColumn = some (natToStr columnIndex) ∧ currentDirOf table = "asc"
  then "desc" else "asc"

/-- `sortTable(tableId, columnIndex, isNumeric)`.  The table argument is the
`getElementById` result (`none` when absent, guarded by an early return).
The `tbody` lookup is NOT guarded: a table without a `<tbody>` throws
(`.error`), as does a comparator access to a missing cell.  On success the
body rows are replaced in sorted order and the dataset and header indicator
classes are updated. -/
def sortTable (tab : Option Table) (columnIndex : Nat) (isNumeric : Bool) :
    Except Unit (Option Table) :=
  match tab with
  | none => .ok none
  | some table =>
    match table.tbody with
    | none => .error ()
    | some rows =>
      match sortRowsE (rowLe isNumeric (newDirOf table columnIndex = "asc") columnIndex)
          rows with
      | .error _ => .error ()
      | .ok sorted =>
        .ok (some { table with
          tbody := some sorted
          sortColumn := some (natToStr columnIndex)
          sortDirection := some (newDirOf table columnIndex)
          headerRow := updateHeaderCells columnIndex (newDirOf table columnIndex)
            table.headerRow })

/-- The text the filter compares for one row:
`cell ? cell.textContent.toLowerCase() : ''`. -/
def cellTextLow (row : TableRow) (columnIndex : Nat) : String :=
  match row.cells.get? columnIndex with
  | some c => toLowerStr c
  | none => ""

/-- The `rows.forEach` body of `filterTable`: show the row (`display = ''`)
when the lowered cell text contains the lowered filter, else hide it
(`display = 'none'`). -/
def rowFilterUpd (filter : String) (columnIndex : Nat) (row : TableRow) : TableRow :=
  { row with display :=
      if listHasSub (cellTextLow row columnIndex).data filter.data then "" else "none" }

/-- `filterTable(tableId, filterValue, columnIndex)`: `none` when the table is
absent (no-op); otherwise every `tbody tr` gets its display set by the
case-insensitive substring match.  Total: every lookup it performs is
guarded. -/
def filterTable (tab : Option Table) (filterValue : String) (columnIndex : Nat) :
    Option Table :=
  match tab with
  | none => none
  | some table =>
    let filter := toLowerStr filterValue
    some { table with tbody := table.tbody.map (List.map (rowFilterUpd filter columnIndex)) }

/-- Doubling of `"` characters: `text.replace(/"/g, '""')`. -/
def doubleQuotes : List Char → List Char
  | [] => []
  | c :: cs => if c = '"' then '"' :: '"' :: doubleQuotes cs else c :: doubleQuotes cs

/-- The per-cell serialization of `exportTableToCSV`: trim, then quote the
field (doubling embedded quotes) iff it contains a comma or a quote. -/
def escapeCSVCell (raw : String) : String :=
  if (trimStr raw).data.contains ',' || (trimStr raw).data.contains '"' then
    ⟨'"' :: (doubleQuotes (trimStr raw).data ++ ['"'])⟩
  else trimStr raw

/-- All rows of the table as cell-text lists, header row first, as
`table.querySelectorAll('tr')` + `row.querySelectorAll('th, td')` see them. -/
def tableRowsTexts (t : Table) : List (List String) :=
  (match t.headerRow with
    | none => []
    | some hs => [hs.map HeaderCell.text]) ++
  (t.tbody.getD []).map TableRow.cells

/-- `exportTableToCSV(tableId, filename)`: `none` when the table is absent
(no-op, nothing downloaded); otherwise the CSV text handed to the Blob — each
row's escaped cells joined with `','`, rows joined with `'\n'`.  The download
side effect (Blob/anchor click) is outside the model. -/
def exportTableToCSV (tab : Option Table) : Option String :=
  match tab with
  | none => none
  | some t =>
    some (joinSep "\n" ((tableRowsTexts t).map
      (fun cells => joinSep "," (cells.map escapeCSVCell))))

/-! ## Quantity input handler and market helpers -/

/-- The `input` listener on `input[name="quantity"]`: parse `max` and `value`
once, then clamp above `max` and below `1`.  A `NaN` parse (`none`) makes both
comparisons false, so the field is left unchanged. -/
def quantityInputHandler (maxAttr value : String) : String :=
  let maxv := parseIntJS maxAttr
  let valv := parseIntJS value
  let field1 :=
    match valv, maxv with
    | some v, some m => if m < v then intToStr m else value
    | _, _ => value
  match valv with
  | some v => if v < 1 then "1" else field1
  | none => field1

/-- `calculateROI(buyPrice, sellPrice)`. -/
def calculateROI (buyPrice sellPrice : Rat) : Rat :=
  if buyPrice ≤ 0 then 0 else ((sellPrice - buyPrice) / buyPrice) * 100

/-- `calculateProfit(buyPrice, sellPrice, quantity)`. -/
def calculateProfit (buyPrice sellPrice quantity : Rat) : Rat :=
  (sellPrice - buyPrice) * quantity

/-! ## Lemmas about CSV serialization (C6) -/

theorem contains_iff_mem (c : Char) (l : List Char) : l.contains c = true ↔ c ∈ l := by
  rw [List.contains_iff_exists_mem_beq]
  constructor
  · rintro ⟨b, hb, hbe⟩
    rw [show c = b from by simpa using hbe]
    exact hb
  · intro h
    exact ⟨c, h, by simp⟩

theorem doubleQuotes_nil : doubleQuotes [] = [] := rfl

theorem doubleQuotes_cons (c : Char) (cs : List Char) :
    doubleQuotes (c :: cs) =
      if c = '"' then '"' :: '"' :: doubleQuotes cs else c :: doubleQuotes cs := rfl

theorem doubleQuotes_eq_flatMap (l : List Char) :
    doubleQuotes l = l.flatMap (fun c => if c = '"' then ['"', '"'] else [c]) := by
  induction l with
  | nil => rfl
  | cons c cs ih =>
    rw [doubleQuotes_cons, List.flatMap_cons]
    by_cases h : c = '"'
    · rw [if_pos h, if_pos h, ih]; rfl
    · rw [if_neg h, if_neg h, ih]; rfl

theorem joinSep_nil (sep : String) : joinSep sep [] = "" := rfl

theorem joinSep_one (sep x : String) : joinSep sep [x] = x := rfl

theorem joinSep_cons (sep x y : String) (ys : List String) :
    joinSep sep (x :: y :: ys) = x ++ sep ++ joinSep sep (y :: ys) := rfl

theorem joinSep_data (sep : String) (l : List String) :
    (joinSep sep l).data = List.intercalate sep.data (l.map String.data) := by
  induction l with
  | nil => rfl
  | cons x xs ih =>
    cases xs with
    | nil =>
      rw [joinSep_one]
      simp [List.intercalate, List.intersperse, List.flatten]
    | cons y ys =>
      rw [joinSep_cons, String.data_append, String.data_append, ih]
      simp only [List.map_cons, List.intercalate, List.intersperse_cons_cons,
        List.flatten, List.append_assoc]

/-- The spec's description of one serialized cell: the trimmed text verbatim,
unless it contains a comma or a double quote, in which case it is wrapped in
double quotes with every embedded double quote doubled. -/
def csvFieldSpec (s : String) : List Char :=
  if ',' ∈ (trimStr s).data ∨ '"' ∈ (trimStr s).data then
    '"' :: ((trimStr s).data.flatMap (fun c => if c = '"' then ['"', '"'] else [c]) ++ ['"'])
  else (trimStr s).data

theorem escapeCSVCell_data (s : String) : (escapeCSVCell s).data = csvFieldSpec s := by
  unfold escapeCSVCell csvFieldSpec
  by_cases h : ',' ∈ (trimStr s).data ∨ '"' ∈ (trimStr s).data
  · have hb : ((trimStr s).data.contains ',' || (trimStr s).data.contains '"') = true := by
      rw [Bool.or_eq_true]
      rcases h with h | h
      · exact Or.inl ((contains_iff_mem _ _).mpr h)
      · exact Or.inr ((contains_iff_mem _ _).mpr h)
    rw [if_pos hb, if_pos h, ← doubleQuotes_eq_flatMap]
  · have hb : ((trimStr s).data.contains ',' || (trimStr s).data.contains '"') ≠ true := by
      intro hcon
      rw [Bool.or_eq_true] at hcon
      rcases hcon with hcon | hcon
      · exact h (Or.inl ((contains_iff_mem _ _).mp hcon))
      · exact h (Or.inr ((contains_iff_mem _ _).mp hcon))
    rw [if_neg hb, if_neg h]

/-- C6: the CSV export serializes each cell to its trimmed text, quoting the
field (with embedded double quotes doubled) exactly when the text contains a
comma or a double quote; cells of a row are joined with commas and rows with
newlines.  (The absent-table case exports nothing.) -/
theorem c6_csv_escaping (t : Table) :
    exportTableToCSV none = none ∧
    ∃ out, exportTableToCSV (some t) = some out ∧
      out.data = List.intercalate ['\n'] ((tableRowsTexts t).map
        (fun cells => List.intercalate [','] (cells.map csvFieldSpec))) := by
  have hline : ∀ cells : List String,
      (joinSep "," (cells.map escapeCSVCell)).data
        = List.intercalate [','] (cells.map csvFieldSpec) := by
    intro cells
    rw [joinSep_data, List.map_map]
    rw [show (String.data ∘ escapeCSVCell) = csvFieldSpec from funext escapeCSVCell_data]
  refine ⟨rfl, joinSep "\n" ((tableRowsTexts t).map
    (fun cells : List String => joinSep "," (cells.map escapeCSVCell))), rfl, ?_⟩
  rw [joinSep_data, List.map_map]
  rw [show (String.data ∘ fun cells : List String => joinSep "," (cells.map escapeCSVCell))
      = fun cells : List String => List.intercalate [','] (cells.map csvFieldSpec)
    from funext (fun cells => hline cells)]

/-! ## Substring-occurrence correctness and the filter claim (C8) -/

theorem startsWithL_nilpat (hay : List Char) : startsWithL hay [] = true := by
  cases hay <;> rfl

theorem startsWithL_nil_cons (d : Char) (ds : List Char) :
    startsWithL [] (d :: ds) = false := rfl

theorem startsWithL_cons_cons (c d : Char) (cs ds : List Char) :
    startsWithL (c :: cs) (d :: ds) = (c == d && startsWithL cs ds) := rfl

theorem startsWithL_iff (pat : List Char) : ∀ hay : List Char,
    startsWithL hay pat = true ↔ ∃ rest, hay = pat ++ rest := by
  induction pat with
  | nil =>
    intro hay
    rw [startsWithL_nilpat]
    exact ⟨fun _ => ⟨hay, rfl⟩, fun _ => rfl⟩
  | cons d ds ih =>
    intro hay
    cases hay with
    | nil =>
      rw [startsWithL_nil_cons]
      constructor
      · intro h; exact absurd h (by decide)
      · rintro ⟨rest, hr⟩; exact absurd hr (by simp)
    | cons c cs =>
      rw [startsWithL_cons_cons, Bool.and_eq_true, beq_iff_eq, ih cs]
      constructor
      · rintro ⟨hcd, rest, hr⟩
        exact ⟨rest, by rw [hcd, hr]; rfl⟩
      · rintro ⟨rest, hr⟩
        rw [List.cons_append] at hr
        injection hr with h1 h2
        exact ⟨h1, rest, h2⟩

theorem listHasSub_nil (pat : List Char) : listHasSub [] pat = pat.isEmpty := rfl

theorem listHasSub_cons (c : Char) (t pat : List Char) :
    listHasSub (c :: t) pat = (startsWithL (c :: t) pat || listHasSub t pat) := rfl

theorem listHasSub_nilpat (hay : List Char) : listHasSub hay [] = true := by
  cases hay with
  | nil => rfl
  | cons c t => rw [listHasSub_cons, startsWithL_nilpat, Bool.true_or]

theorem listHasSub_iff (pat : List Char) : ∀ hay : List Char,
    listHasSub hay pat = true ↔ SubOccurs pat hay := by
  unfold SubOccurs
  intro hay
  induction hay with
  | nil =>
    rw [listHasSub_nil]
    constructor
    · intro h
      have hp : pat = [] := by simpa using h
      exact ⟨[], [], by simp [hp]⟩
    · rintro ⟨p, q, hpq⟩
      have := hpq.symm
      simp only [List.append_assoc, List.append_eq_nil] at this
      simp [this.2.1]
  | cons c t ih =>
    rw [listHasSub_cons, Bool.or_eq_true, startsWithL_iff, ih]
    constructor
    · rintro (⟨rest, hr⟩ | ⟨p, q, hpq⟩)
      · exact ⟨[], rest, by simp [hr]⟩
      · exact ⟨c :: p, q, by simp [hpq]⟩
    · rintro ⟨p, q, hpq⟩
      cases p with
      | nil => exact Or.inl ⟨q, by simpa using hpq⟩
      | cons x xs =>
        right
        rw [List.cons_append, List.cons_append] at hpq
        injection hpq with h1 h2
        exact ⟨xs, q, by simpa using h2⟩

/-- C8: filterTable lowers the filter once and, for each body row, compares it
against the lowered text of that row's cell in the filtered column (missing
cell reads as empty): rows whose text contains the filter get `display = ''`
(shown), the others get `display = 'none'` (hidden, cells untouched — rows are
not removed).  A filter occurring in no cell of the column hides every row,
and the empty filter shows every row. -/
theorem c8_filter_semantics (t : Table) (rs : List TableRow) (fv : String) (ci : Nat)
    (hb : t.tbody = some rs) :
    filterTable (some t) fv ci
      = some { t with tbody := some (rs.map (rowFilterUpd (toLowerStr fv) ci)) } ∧
    (∀ row ∈ rs,
      (rowFilterUpd (toLowerStr fv) ci row).cells = row.cells ∧
      ((rowFilterUpd (toLowerStr fv) ci row).display = "" ↔
        SubOccurs (toLowerStr fv).data (cellTextLow row ci).data) ∧
      ((rowFilterUpd (toLowerStr fv) ci row).display = "none" ↔
        ¬ SubOccurs (toLowerStr fv).data (cellTextLow row ci).data)) ∧
    ((∀ row ∈ rs, ¬ SubOccurs (toLowerStr fv).data (cellTextLow row ci).data) →
      ∀ row ∈ rs, (rowFilterUpd (toLowerStr fv) ci row).display = "none") ∧
    (fv = "" → ∀ row ∈ rs, (rowFilterUpd (toLowerStr fv) ci row).display = "") := by
  refine ⟨?_, ?_, ?_, ?_⟩
  · have hred : filterTable (some t) fv ci
        = some { t with tbody := t.tbody.map (List.map (rowFilterUpd (toLowerStr fv) ci)) } :=
      rfl
    rw [hred, hb]
    rfl
  · intro row hrow
    refine ⟨rfl, ?_, ?_⟩
    · unfold rowFilterUpd
      by_cases hs : listHasSub (cellTextLow row ci).data (toLowerStr fv).data = true
      · rw [if_pos hs]
        exact ⟨fun _ => (listHasSub_iff _ _).mp hs, fun _ => rfl⟩
      · rw [if_neg hs]
        constructor
        · intro hcon
          exact absurd (show ("none" : String) = "" from hcon) (by decide)
        · intro hcon; exact absurd ((listHasSub_iff _ _).mpr hcon) hs
    · unfold rowFilterUpd
      by_cases hs : listHasSub (cellTextLow row ci).data (toLowerStr fv).data = true
      · rw [if_pos hs]
        constructor
        · intro hcon
          exact absurd (show ("" : String) = "none" from hcon) (by decide)
        · intro hcon; exact absurd ((listHasSub_iff _ _).mp hs) hcon
      · rw [if_neg hs]
        exact ⟨fun _ => fun hcon => hs ((listHasSub_iff _ _).mpr hcon), fun _ => rfl⟩
  · intro hall row hrow
    unfold rowFilterUpd
    have hs : listHasSub (cellTextLow row ci).data (toLowerStr fv).data ≠ true :=
      fun hcon => hall row hrow ((listHasSub_iff _ _).mp hcon)
    rw [if_neg hs]
  · intro hfv row hrow
    subst hfv
    unfold rowFilterUpd
    have hs : listHasSub (cellTextLow row ci).data (toLowerStr "").data = true := by
      exact listHasSub_nilpat _
    rw [if_pos hs]

/-- A concrete table for the filter witness: two rows, one matching. -/
def c8Table : Table :=
  { headerRow := none,
    tbody := some [⟨["Alpha"], ""⟩, ⟨["Beta"], ""⟩],
    sortColumn := none, sortDirection := none }

/-- C8 witness: filtering the concrete table by "al" in column 0. -/
theorem c8_filter_semantics_witness :
    filterTable (some c8Table) "al" 0
      = some { c8Table with tbody := some ([⟨["Alpha"], ""⟩, ⟨["Beta"], ""⟩].map
          (rowFilterUpd (toLowerStr "al") 0)) } ∧
    (∀ row ∈ ([⟨["Alpha"], ""⟩, ⟨["Beta"], ""⟩] : List TableRow),
      (rowFilterUpd (toLowerStr "al") 0 row).cells = row.cells ∧
      ((rowFilterUpd (toLowerStr "al") 0 row).display = "" ↔
        SubOccurs (toLowerStr "al").data (cellTextLow row 0).data) ∧
      ((rowFilterUpd (toLowerStr "al") 0 row).display = "none" ↔
        ¬ SubOccurs (toLowerStr "al").data (cellTextLow row 0).data)) ∧
    ((∀ row ∈ ([⟨["Alpha"], ""⟩, ⟨["Beta"], ""⟩] : List TableRow),
        ¬ SubOccurs (toLowerStr "al").data (cellTextLow row 0).data) →
      ∀ row ∈ ([⟨["Alpha"], ""⟩, ⟨["Beta"], ""⟩] : List TableRow),
        (rowFilterUpd (toLowerStr "al") 0 row).display = "none") ∧
    ("al" = "" → ∀ row ∈ ([⟨["Alpha"], ""⟩, ⟨["Beta"], ""⟩] : List TableRow),
      (rowFilterUpd (toLowerStr "al") 0 row).display = "") :=
  c8_filter_semantics c8Table [⟨["Alpha"], ""⟩, ⟨["Beta"], ""⟩] "al" 0 rfl

/-! ## Lemmas about sortTable (C5, C7) -/

theorem compRows_ok (isNumeric ascQ : Bool) (ci : Nat) (a b : TableRow)
    (ha : ci < a.cells.length) (hb : ci < b.cells.length) :
    ∃ z, compRows isNumeric ascQ ci a b = Except.ok z := by
  obtain ⟨av, hav⟩ : ∃ v, a.cells.get? ci = some v :=
    ⟨a.cells.get ⟨ci, ha⟩, List.get?_eq_get ha⟩
  obtain ⟨bv, hbv⟩ : ∃ v, b.cells.get? ci = some v :=
    ⟨b.cells.get ⟨ci, hb⟩, List.get?_eq_get hb⟩
  unfold compRows
  rw [hav, hbv]
  exact ⟨_, rfl⟩

theorem rowLe_ok (isNumeric ascQ : Bool) (ci : Nat) (a b : TableRow)
    (ha : ci < a.cells.length) (hb : ci < b.cells.length) :
    ∃ z, rowLe isNumeric ascQ ci a b = Except.ok z := by
  obtain ⟨w, hw⟩ := compRows_ok isNumeric ascQ ci a b ha hb
  refine ⟨decide (w ≤ 0), ?_⟩
  unfold rowLe
  rw [hw]

theorem insertRowE_ok (le : TableRow → TableRow → Except Unit Bool)
    (P : TableRow → Prop)
    (hle : ∀ a b, P a → P b → ∃ z, le a b = Except.ok z)
    (x : TableRow) (hx : P x) :
    ∀ l, (∀ r ∈ l, P r) →
      ∃ out, insertRowE le x l = .ok out ∧ ∀ r ∈ out, r = x ∨ r ∈ l := by
  intro l
  induction l with
  | nil =>
    intro _
    refine ⟨[x], rfl, ?_⟩
    intro r hr
    simp only [List.mem_singleton] at hr
    exact Or.inl hr
  | cons y ys ih =>
    intro hl
    obtain ⟨z, hz⟩ := hle x y hx (hl y (List.mem_cons_self y ys))
    cases z with
    | true =>
      refine ⟨x :: y :: ys, ?_, ?_⟩
      · unfold insertRowE; rw [hz]
      · intro r hr
        simp only [List.mem_cons] at hr ⊢
        tauto
    | false =>
      obtain ⟨out, hout, hmem⟩ := ih (fun r hr => hl r (List.mem_cons_of_mem y hr))
      refine ⟨y :: out, ?_, ?_⟩
      · unfold insertRowE; rw [hz, hout]
      · intro r hr
        simp only [List.mem_cons] at hr ⊢
        rcases hr with h1 | h1
        · tauto
        · rcases hmem r h1 with h2 | h2 <;> tauto

theorem sortRowsE_ok (le : TableRow → TableRow → Except Unit Bool)
    (P : TableRow → Prop)
    (hle : ∀ a b, P a → P b → ∃ z, le a b = Except.ok z) :
    ∀ l, (∀ r ∈ l, P r) →
      ∃ out, sortRowsE le l = .ok out ∧ ∀ r ∈ out, r ∈ l := by
  intro l
  induction l with
  | nil =>
    intro _
    exact ⟨[], rfl, fun r hr => absurd hr (List.not_mem_nil r)⟩
  | cons x xs ih =>
    intro hl
    obtain ⟨s, hs, hsm⟩ := ih (fun r hr => hl r (List.mem_cons_of_mem x hr))
    obtain ⟨out, hout, hom⟩ :=
      insertRowE_ok le P hle x (hl x (List.mem_cons_self x xs)) s
        (fun r hr => hl r (List.mem_cons_of_mem x (hsm r hr)))
    refine ⟨out, ?_, ?_⟩
    · unfold sortRowsE; rw [hs]; exact hout
    · intro r hr
      rcases hom r hr with h1 | h1
      · rw [h1]; exact List.mem_cons_self x xs
      · exact List.mem_cons_of_mem x (hsm r h1)

/-- On a table that has a `<tbody>` and whose body rows all have a cell at the
sorted column, `sortTable` completes without throwing, returning the sorted
rows (a subset of the originals) with the dataset updated. -/
theorem sortTable_ok (t : Table) (rs : List TableRow) (ci : Nat) (num : Bool)
    (hb : t.tbody = some rs) (hc : ∀ r ∈ rs, ci < r.cells.length) :
    ∃ sorted, sortTable (some t) ci num
        = .ok (some { t with
            tbody := some sorted
            sortColumn := some (natToStr ci)
            sortDirection := some (newDirOf t ci)
            headerRow := updateHeaderCells ci (newDirOf t ci) t.headerRow })
      ∧ (∀ r ∈ sorted, r ∈ rs) := by
  obtain ⟨sorted, hsrt, hmem⟩ :=
    sortRowsE_ok (rowLe num (newDirOf t ci = "asc") ci)
      (fun r => ci < r.cells.length)
      (fun a b ha hb2 => rowLe_ok num (newDirOf t ci = "asc") ci a b ha hb2)
      rs hc
  refine ⟨sorted, ?_, hmem⟩
  obtain ⟨hrw, tb, sc, sd⟩ := t
  simp only at hb
  subst hb
  have hred : sortTable (some (⟨hrw, some rs, sc, sd⟩ : Table)) ci num
      = (match sortRowsE (rowLe num
            (newDirOf (⟨hrw, some rs, sc, sd⟩ : Table) ci = "asc") ci) rs with
        | .error _ => Except.error ()
        | .ok sorted2 =>
          .ok (some { (⟨hrw, some rs, sc, sd⟩ : Table) with
            tbody := some sorted2
            sortColumn := some (natToStr ci)
            sortDirection := some (newDirOf (⟨hrw, some rs, sc, sd⟩ : Table) ci)
            headerRow := updateHeaderCells ci
              (newDirOf (⟨hrw, some rs, sc, sd⟩ : Table) ci) hrw })) := rfl
  rw [hred, hsrt]

/-- `sortTable` on a table without a `<tbody>` throws. -/
theorem sortTable_no_tbody (t : Table) (ci : Nat) (num : Bool)
    (hb : t.tbody = none) : sortTable (some t) ci num = .error () := by
  obtain ⟨hrw, tb, sc, sd⟩ := t
  simp only at hb
  subst hb
  rfl

/-! ## Claims about the table utilities (C5, C7) -/

/-- C5 counterexample: `sortTable` on an existing table that has no `<tbody>`
dereferences the null `querySelector('tbody')` result and throws (modelled as
`Except.error`), so "every DOM lookup is guarded; never throws" fails at this
concrete input. -/
theorem c5_sortTable_missing_tbody_throws :
    sortTable (some { headerRow := none, tbody := none,
                      sortColumn := none, sortDirection := none }) 0 false
      = Except.error () := by
  decide

/-- C5 (amended): filterTable and exportTableToCSV are no-ops on an absent
table and never throw — their tbody and per-row cell lookups are guarded
(total functions in the model); sortTable is a no-op on an absent table, but
its `tbody` lookup is unguarded: it throws on a table with no `<tbody>`, and
completes without throwing when the table has a `<tbody>` whose rows all carry
a cell at the sorted column. -/
theorem c5_dom_guards (ci : Nat) (num : Bool) (fv : String) (t : Table)
    (rs : List TableRow) (hb : t.tbody = some rs)
    (hc : ∀ r ∈ rs, ci < r.cells.length) :
    sortTable none ci num = .ok none ∧
    filterTable none fv ci = none ∧
    exportTableToCSV none = none ∧
    (∀ t2 : Table, t2.tbody = none → sortTable (some t2) ci num = .error ()) ∧
    (∃ t3, sortTable (some t) ci num = .ok (some t3)) := by
  refine ⟨rfl, rfl, rfl, fun t2 h2 => sortTable_no_tbody t2 ci num h2, ?_⟩
  obtain ⟨sorted, hok, _⟩ := sortTable_ok t rs ci num hb hc
  exact ⟨_, hok⟩

/-- Concrete one-row table for the C5 witness. -/
def c5Table : Table :=
  { headerRow := none, tbody := some [⟨["a"], ""⟩],
    sortColumn := none, sortDirection := none }

/-- C5 witness: the amended statement at column 0, string comparator, filter
"x", on the concrete one-row table. -/
theorem c5_dom_guards_witness :
    sortTable none 0 false = .ok none ∧
    filterTable none "x" 0 = none ∧
    exportTableToCSV none = none ∧
    (∀ t2 : Table, t2.tbody = none → sortTable (some t2) 0 false = .error ()) ∧
    (∃ t3, sortTable (some c5Table) 0 false = .ok (some t3)) :=
  c5_dom_guards 0 false "x" c5Table [⟨["a"], ""⟩] rfl
    (by intro r hr; simp only [List.mem_singleton] at hr; subst hr; decide)

theorem newDirOf_after_asc (t' : Table) (ci : Nat)
    (hsc : t'.sortColumn = some (natToStr ci)) (hsd : t'.sortDirection = some "asc") :
    newDirOf t' ci = "desc" := by
  have hcd : currentDirOf t' = "asc" := by
    unfold currentDirOf
    rw [hsd]
    decide
  unfold newDirOf
  rw [if_pos ⟨hsc, hcd⟩]

theorem newDirOf_after_desc (t' : Table) (ci : Nat)
    (hsd : t'.sortDirection = some "desc") : newDirOf t' ci = "asc" := by
  have hcd : currentDirOf t' = "desc" := by
    unfold currentDirOf
    rw [hsd]
    decide
  unfold newDirOf
  rw [if_neg]
  rintro ⟨h1, h2⟩
  rw [hcd] at h2
  exact absurd h2 (by decide)

/-- C7: on a table with a `<tbody>` whose rows all have the sorted column's
cell, and which is not currently recorded as sorted ascending on that column,
three consecutive `sortTable` calls on the same column record directions
ascending, then descending, then ascending, each updating the table's
`data-sort-column` to that column. -/
theorem c7_sort_direction_toggles (t : Table) (rs : List TableRow) (ci : Nat)
    (num : Bool) (hb : t.tbody = some rs) (hc : ∀ r ∈ rs, ci < r.cells.length)
    (hns : ¬(t.sortColumn = some (natToStr ci) ∧ currentDirOf t = "asc")) :
    ∃ t1 t2 t3,
      sortTable (some t) ci num = .ok (some t1) ∧
      t1.sortColumn = some (natToStr ci) ∧ t1.sortDirection = some "asc" ∧
      sortTable (some t1) ci num = .ok (some t2) ∧
      t2.sortColumn = some (natToStr ci) ∧ t2.sortDirection = some "desc" ∧
      sortTable (some t2) ci num = .ok (some t3) ∧
      t3.sortColumn = some (natToStr ci) ∧ t3.sortDirection = some "asc" := by
  have hd1 : newDirOf t ci = "asc" := by
    unfold newDirOf
    rw [if_neg hns]
  obtain ⟨s1, hok1, hm1⟩ := sortTable_ok t rs ci num hb hc
  rw [hd1] at hok1
  have hc1 : ∀ r ∈ s1, ci < r.cells.length := fun r hr => hc r (hm1 r hr)
  obtain ⟨s2, hok2, hm2⟩ := sortTable_ok
    { t with tbody := some s1
             sortColumn := some (natToStr ci)
             sortDirection := some "asc"
             headerRow := updateHeaderCells ci "asc" t.headerRow }
    s1 ci num rfl hc1
  rw [newDirOf_after_asc
    { t with tbody := some s1
             sortColumn := some (natToStr ci)
             sortDirection := some "asc"
             headerRow := updateHeaderCells ci "asc" t.headerRow }
    ci rfl rfl] at hok2
  have hc2 : ∀ r ∈ s2, ci < r.cells.length := fun r hr => hc1 r (hm2 r hr)
  obtain ⟨s3, hok3, _⟩ := sortTable_ok
    { t with tbody := some s2
             sortColumn := some (natToStr ci)
             sortDirection := some "desc"
             headerRow := updateHeaderCells ci "desc"
               (updateHeaderCells ci "asc" t.headerRow) }
    s2 ci num rfl hc2
  rw [newDirOf_after_desc
    { t with tbody := some s2
             sortColumn := some (natToStr ci)
             sortDirection := some "desc"
             headerRow := updateHeaderCells ci "desc"
               (updateHeaderCells ci "asc" t.headerRow) }
    ci rfl] at hok3
  exact ⟨_, _, _, hok1, rfl, rfl, hok2, rfl, rfl, hok3, rfl, rfl⟩

/-- Concrete two-row table, not yet sorted, for the C7 witness. -/
def c7Table : Table :=
  { headerRow := some [⟨"Name", []⟩],
    tbody := some [⟨["b"], ""⟩, ⟨["a"], ""⟩],
    sortColumn := none, sortDirection := none }

/-- C7 witness: three consecutive sorts of the concrete table by column 0. -/
theorem c7_sort_direction_toggles_witness :
    ∃ t1 t2 t3,
      sortTable (some c7Table) 0 false = .ok (some t1) ∧
      t1.sortColumn = some (natToStr 0) ∧ t1.sortDirection = some "asc" ∧
      sortTable (some t1) 0 false = .ok (some t2) ∧
      t2.sortColumn = some (natToStr 0) ∧ t2.sortDirection = some "desc" ∧
      sortTable (some t2) 0 false = .ok (some t3) ∧
      t3.sortColumn = some (natToStr 0) ∧ t3.sortDirection = some "asc" :=
  c7_sort_direction_toggles c7Table [⟨["b"], ""⟩, ⟨["a"], ""⟩] 0 false rfl
    (by intro r hr
        simp only [List.mem_cons, List.mem_singleton] at hr
        rcases hr with h | h | h <;> first | (subst h; decide) | simp at h)
    (by decide)

/-! ## Claims about the quantity handler and ROI (C9, C10) -/

/-- C9 counterexample: `parseInt('abc')` is `NaN`, both `NaN > max` and
`NaN < 1` are false, so the handler leaves a non-numeric field value
unchanged — it does not parse to an integer in `[1, max]` afterwards. -/
theorem c9_nan_not_clamped :
    quantityInputHandler "10" "abc" = "abc" ∧ parseIntJS "abc" = none := by
  decide

/-- C9 (amended): numeric input is clamped — when both the field value and
the `max` attribute parse to integers with `1 ≤ max`, the value after the
handler parses to an integer in `[1, max]`; but malformed (NaN-parsing) input
is left unchanged rather than clamped, because both comparisons with `NaN`
are false. -/
theorem c9_numeric_clamped (maxAttr value : String) (v m : Int)
    (h1 : parseIntJS value = some v) (h2 : parseIntJS maxAttr = some m)
    (h3 : 1 ≤ m) :
    (∀ w : String, parseIntJS w = none → quantityInputHandler maxAttr w = w) ∧
    ∃ r : Int, parseIntJS (quantityInputHandler maxAttr value) = some r ∧
      1 ≤ r ∧ r ≤ m := by
  constructor
  · intro w hw
    simp only [quantityInputHandler, hw]
  · have hq : quantityInputHandler maxAttr value
        = (if v < 1 then "1" else if m < v then intToStr m else value) := by
      simp only [quantityInputHandler, h1, h2]
    rw [hq]
    by_cases hlt : v < 1
    · refine ⟨1, ?_, le_refl 1, h3⟩
      rw [if_pos hlt]
      decide
    · by_cases hgt : m < v
      · refine ⟨m, ?_, h3, le_refl m⟩
        rw [if_neg hlt, if_pos hgt]
        exact parseIntJS_intToStr m
      · refine ⟨v, ?_, by omega, by omega⟩
        rw [if_neg hlt, if_neg hgt]
        exact h1

/-- C9 witness: a numeric in-range value "5" with max "10". -/
theorem c9_numeric_clamped_witness :
    (∀ w : String, parseIntJS w = none → quantityInputHandler "10" w = w) ∧
    ∃ r : Int, parseIntJS (quantityInputHandler "10" "5") = some r ∧
      1 ≤ r ∧ r ≤ 10 :=
  c9_numeric_clamped "10" "5" 5 10 (by decide) (by decide) (by decide)

/-- C10: `calculateROI` returns 0 whenever the buy price is non-positive (the
division is guarded), and otherwise returns `((sell - buy) / buy) * 100`,
which indeed satisfies the defining equation `roi * buy = (sell - buy) * 100`
of a percentage return. -/
theorem c10_roi_guarded (b s : Rat) :
    (b ≤ 0 → calculateROI b s = 0) ∧
    (0 < b → calculateROI b s = ((s - b) / b) * 100) ∧
    (0 < b → calculateROI b s * b = (s - b) * 100) := by
  refine ⟨?_, ?_, ?_⟩
  · intro h
    unfold calculateROI
    rw [if_pos h]
  · intro h
    unfold calculateROI
    rw [if_neg (not_le.mpr h)]
  · intro h
    unfold calculateROI
    rw [if_neg (not_le.mpr h)]
    have hb : b ≠ 0 := ne_of_gt h
    field_simp

/-- C10 witness: a non-positive buy price and a positive one. -/
theorem c10_roi_guarded_witness :
    calculateROI (-1) 5 = 0 ∧ calculateROI 2 5 = ((5 - 2) / 2) * 100 ∧
    calculateROI 2 5 * 2 = (5 - 2) * 100 :=
  ⟨(c10_roi_guarded (-1) 5).1 (by norm_num),
   (c10_roi_guarded 2 5).2.1 (by norm_num),
   (c10_roi_guarded 2 5).2.2 (by norm_num)⟩
